import Mathlib

/-!
Verification development for the route-computation pipeline of
`caculate_optimal_route.py` (with the surface-statistics aggregation of
`app.py` / `routing_app_v3.py`).

Numeric values (coordinates, cumulative distances, segment lengths) are
modeled as exact rationals; Python exceptions are modeled with `Except`.
-/

namespace RoutingTool

/-- Coordinate pair (longitude, latitude) in degrees. -/
abbrev Coord := ℚ × ℚ

/-- Mirrors `Job(id=i+1, location=loc, priority=1)` rows built by the
request-building stage (line 42 of `caculate_optimal_route.py`). -/
structure Job where
  id : ℕ
  location : Coord
  priority : ℕ
deriving DecidableEq, Repr

/-- Error kinds surfaced by the pipeline, per the spec's error design. -/
inductive RouteError where
  | missingColumn
  | emptyDestinations
  | unroutableLocation (nm : String)
  | serviceError
deriving DecidableEq, Repr

/-- Mirrors line 42: `jobs = [Job(id=i+1, location=loc, priority=1) for i, loc
in enumerate(stops)]`. -/
def buildJobs (stops : List Coord) : List Job :=
  stops.enum.map (fun p => ⟨p.1 + 1, p.2, 1⟩)

/-- Request-building stage as a fallible computation. The source builds the
job list unconditionally (lines 39-42): there is no emptiness check, so the
stage never raises; `Except` is the model of Python exceptions. -/
def buildJobsChecked (stops : List Coord) : Except RouteError (List Job) :=
  .ok (buildJobs stops)

/-- One optimization-service step row: `{'type': kind, 'job': job,
'location': location, 'distance': distance}` (cumulative meters). -/
structure Step where
  kind : String
  job : Option ℕ
  location : Coord
  distance : ℚ
deriving DecidableEq, Repr

/-- Mirrors lines 93-100: keep the steps whose `job` field is not None, sort
ascending by cumulative distance, then `reset_index(drop=False)` turns the
pre-sort DataFrame index into the `rank` column and 1 is added.  Each result
row is `(rank, step)`, rows in distance-sorted order.  (pandas' default sort
is unstable; a stable sort is used here, which agrees whenever the distance
keys are distinct.) -/
def job_sequence (steps : List Step) : List (ℕ × Step) :=
  let filtered := steps.filter (fun s => s.job.isSome)
  let indexed := filtered.enum
  let sorted := List.insertionSort (fun a b => a.2.distance ≤ b.2.distance) indexed
  sorted.map (fun p => (p.1 + 1, p.2))

/-- Mirrors lines 124-126 and 137-148: all steps (start, jobs, end) sorted
ascending by cumulative distance; `route_segments['distance'].diff()` takes
consecutive differences of the distance column and `iloc[1:]` drops the first
(NaN) row.  Values are meters, before the `/1000` conversion and the
2-decimal rounding. -/
def route_segment_distances_m (steps : List Step) : List ℚ :=
  let sorted := List.insertionSort (fun a b : Step => a.distance ≤ b.distance) steps
  (sorted.zip sorted.tail).map (fun p => p.2.distance - p.1.distance)

/-- One assignment `gdf.loc[start:end, 'surface'] = surface_id` on the surface
column, positions `start..end` inclusive on both ends (pandas label slicing),
`i0` being the index of the first cell of the remaining column. -/
def setRangeFrom (i0 s e : ℕ) (c : ℤ) : List (Option ℤ) → List (Option ℤ)
  | [] => []
  | v :: t => (if s ≤ i0 ∧ i0 ≤ e then some c else v) :: setRangeFrom (i0 + 1) s e c t

/-- Statement `gdf.loc[start:end, 'surface'] = surface_id` on the whole column. -/
def setRange (s e : ℕ) (c : ℤ) (l : List (Option ℤ)) : List (Option ℤ) :=
  setRangeFrom 0 s e c l

/-- Body of `add_road_surface_id` (lines 186-192) on a column of `numSegs`
elementary segments: initialize the surface column to None, then apply each
`(start, end, surface_id)` range in order (a later overlapping range wins). -/
def assignSurfaces (numSegs : ℕ) (details : List (ℕ × ℕ × ℤ)) : List (Option ℤ) :=
  details.foldl (fun acc d => setRange d.1 d.2.1 d.2.2 acc) (List.replicate numSegs none)

/-- Function `add_road_surface_id` (lines 172-192): a path of `numCoords` coordinates
is split into `numCoords - 1` elementary 2-point segments, whose surface
column is then filled from the ranges. -/
def add_road_surface_id (numCoords : ℕ) (details : List (ℕ × ℕ × ℤ)) : List (Option ℤ) :=
  assignSurfaces (numCoords - 1) details

/-- The `surface_codes` dictionary (lines 196-201). -/
def surface_codes : List (ℤ × String) :=
  [(0, "Unknown"), (1, "Paved"), (2, "Unpaved"), (3, "Asphalt"), (4, "Concrete"),
   (6, "Metal"), (7, "Wood"), (8, "Compacted Gravel"), (10, "Gravel"), (11, "Dirt"),
   (12, "Ground"), (13, "Ice"), (14, "Paving Stones"), (15, "Sand"), (17, "Grass"),
   (18, "Grass Paver")]

/-- Line 202: `surface_codes.get(x, "Unknown")` applied to a column value that
is either None (no range covered the segment) or an integer code. -/
def labelOf (x : Option ℤ) : String :=
  match x with
  | none => "Unknown"
  | some c => ((surface_codes.find? (fun p => p.1 == c)).map Prod.snd).getD "Unknown"

/-- A pandas DataFrame abstracted to what the cited prelude manipulates: its
column names (in order) and its rows of cell values. -/
structure PdTable where
  cols : List String
  rows : List (List String)
deriving DecidableEq, Repr

/-- Python `str.lower()` on a column name. -/
def strLower (s : String) : String := ⟨s.data.map Char.toLower⟩

/-- The alias map of line 29:
`{'latitude': 'lat', 'longitude': 'lon', 'y': 'lat', 'x': 'lon'}`. -/
def aliasOf (c : String) : String :=
  if c = "latitude" then "lat"
  else if c = "longitude" then "lon"
  else if c = "y" then "lat"
  else if c = "x" then "lon"
  else c

/-- Line 28: `df.columns = df.columns.str.lower()`. -/
def lowerCols (t : PdTable) : PdTable := ⟨t.cols.map strLower, t.rows⟩

/-- Line 29: `df.rename(columns={...}, inplace=True)`. -/
def renameCols (t : PdTable) : PdTable := ⟨t.cols.map aliasOf, t.rows⟩

/-- Statement `df[c] = v` (lines 21 and 23): overwrite column `c` with the constant `v`
when present, else append it. -/
def setConstCol (t : PdTable) (c v : String) : PdTable :=
  if c ∈ t.cols then
    ⟨t.cols, t.rows.map (fun r => (t.cols.zip r).map (fun p => if p.1 = c then v else p.2))⟩
  else
    ⟨t.cols ++ [c], t.rows.map (fun r => r ++ [v])⟩

/-- Column-name normalization of lines 27-29. -/
def normalizeTable (t : PdTable) : PdTable := renameCols (lowerCols t)

/-- Lines 32-34: `gpd.points_from_xy(df.lon, df.lat)` — the attribute access
raises when the normalized table has no `lon` (or `lat`) column; that failure
is the `missingColumn` error. -/
def resolveCoords (t : PdTable) : Except RouteError PdTable :=
  let n := normalizeTable t
  if "lon" ∈ n.cols ∧ "lat" ∈ n.cols then .ok n else .error .missingColumn

/-- The pipeline up to (and excluding) the first service call: name columns
added to the source / final-stop copies (lines 20-24), then normalization and
coordinate resolution for the three tables in source, final-stop,
destinations order (lines 26-34). -/
def pipelineHead (src dst fin : PdTable) : Except RouteError (PdTable × PdTable × PdTable) :=
  (resolveCoords (setConstCol src "name" "Starting point")).bind fun s =>
    (resolveCoords (setConstCol fin "name" "Final stop")).bind fun f =>
      (resolveCoords dst).map fun d => (s, f, d)

/-- The pipeline with the external services abstracted as an oracle consuming
the normalized tables; the oracle is reached only after `pipelineHead`
succeeds (the optimization call is line 58). -/
def pipelineWithService {σ : Type} (src dst fin : PdTable)
    (oracle : PdTable × PdTable × PdTable → Except RouteError σ) : Except RouteError σ :=
  (pipelineHead src dst fin).bind oracle

/-- Python `round` to the nearest integer, ties to even (banker's rounding). -/
def roundHalfEven (x : ℚ) : ℤ :=
  if x - ⌊x⌋ < 1 / 2 then ⌊x⌋
  else if 1 / 2 < x - ⌊x⌋ then ⌊x⌋ + 1
  else if Even ⌊x⌋ then ⌊x⌋ else ⌊x⌋ + 1

/-- Python `round(x, 2)`. -/
def round2 (x : ℚ) : ℚ := (roundHalfEven (x * 100) : ℚ) / 100

/-- The group keys of `df.groupby('surface')`: the distinct surface labels of
the elementary path segments. -/
def statLabels (segs : List (String × ℚ)) : List String :=
  (segs.map Prod.fst).dedup

/-- Expression `groupby('surface')['segment_length'].sum()`: total meters of one surface
group. -/
def groupWeight (segs : List (String × ℚ)) (l : String) : ℚ :=
  ((segs.filter (fun s => s.1 == l)).map Prod.snd).sum

/-- Column `total_length_km = total_length_m / 1000` for one group. -/
def groupKm (segs : List (String × ℚ)) (l : String) : ℚ :=
  groupWeight segs l / 1000

/-- Value `total_length = surface_stats['total_length_km'].sum()`. -/
def totalKm (segs : List (String × ℚ)) : ℚ :=
  ((statLabels segs).map (groupKm segs)).sum

/-- The surface-statistics aggregation of `downloadRoadSurfaceStats`
(`app.py` lines 296-309, identically `routing_app_v3.py` lines 996-1009):
group the elementary path segments by surface label, sum the lengths
(meters), convert to kilometers, compute each group's percentage of the
total, round both to 2 decimals and sort descending by rounded length.  Each
output row is (label, rounded total km, rounded percentage). -/
def surface_stats (segs : List (String × ℚ)) : List (String × ℚ × ℚ) :=
  List.insertionSort (fun a b => b.2.1 ≤ a.2.1)
    ((statLabels segs).map (fun l =>
      (l, round2 (groupKm segs l), round2 (groupKm segs l / totalKm segs * 100))))

/-- Python object store: DataFrames live at numbered locations; `next` is the
next fresh location. -/
structure Heap where
  next : ℕ
  mem : ℕ → PdTable

/-- Allocation of a fresh object. -/
def Heap.alloc (h : Heap) (t : PdTable) : Heap × ℕ :=
  (⟨h.next + 1, fun i => if i = h.next then t else h.mem i⟩, h.next)

/-- In-place mutation of the object at location `i`. -/
def Heap.write (h : Heap) (i : ℕ) (t : PdTable) : Heap :=
  ⟨h.next, fun j => if j = i then t else h.mem j⟩

/-- Python `df.copy()`: the value placed in a fresh object. -/
def copyTable (t : PdTable) : PdTable := t

/-- Python `pat in text`: does `pat` occur as a contiguous substring? -/
def occursIn (pat : List Char) : List Char → Bool
  | [] => pat.isEmpty
  | c :: rest => ((c :: rest).take pat.length == pat) || occursIn pat rest

/-- Python `text.replace(pat, rep)`: scan left to right; at each position, if
`pat` matches, emit `rep` and skip past the match, else keep the character
and move on. -/
def replChars (pat rep : List Char) : List Char → List Char
  | [] => []
  | c :: rest =>
    if h : 0 < pat.length ∧ (c :: rest).take pat.length = pat then
      rep ++ replChars pat rep ((c :: rest).drop pat.length)
    else
      c :: replChars pat rep rest
termination_by t => t.length
decreasing_by
  · simp only [List.length_drop, List.length_cons]
    omega
  · simp only [List.length_cons]
    omega

/-- Function `replace_names` (lines 154-157): fold over the ordered name→identifier
pairs, replacing every occurrence of each key in the text in turn. -/
def replace_names (text : String) (name_list : List (String × String)) : String :=
  ⟨name_list.foldl (fun t kv => replChars kv.1.data kv.2.data t) text.data⟩

/-- The text `"destination 9 to "` followed by a tail — the shape every
intermediate segment name takes while the rank keys are substituted in. -/
def destLead (w : List Char) : List Char :=
  'd' :: 'e' :: 's' :: 't' :: 'i' :: 'n' :: 'a' :: 't' :: 'i' :: 'o' :: 'n' ::
    ' ' :: '9' :: ' ' :: 't' :: 'o' :: ' ' :: w

/-- A decimal literal as matched by the regex piece `-?\d+\.?\d*`: sign,
integer digits, fraction digits (purely syntactic, so that parsing results
are decidably comparable). -/
structure DecimalTok where
  neg : Bool
  ip : List Char
  fp : List Char
deriving DecidableEq, Repr

/-- Value of a decimal digit character. -/
def digitVal (c : Char) : ℕ := c.toNat - '0'.toNat

/-- Value of a digit string. -/
def natOfDigits (ds : List Char) : ℕ := ds.foldl (fun a c => a * 10 + digitVal c) 0

/-- Python `float(...)` on the matched literal, as an exact rational. -/
def DecimalTok.toRat (d : DecimalTok) : ℚ :=
  let mag : ℚ := (natOfDigits d.ip : ℚ) + (natOfDigits d.fp : ℚ) / (10 : ℚ) ^ d.fp.length
  if d.neg then -mag else mag

/-- Match a literal piece of a regex pattern. -/
def takeLit (lit s : List Char) : Option (List Char) :=
  if s.take lit.length = lit then some (s.drop lit.length) else none

/-- Pattern `-?\d+\.?\d*` anchored at the head of `s` (greedy; for this pattern the
greedy match without backtracking is equivalent to the regex engine's). -/
def parseDecimal (s : List Char) : Option (DecimalTok × List Char) :=
  let negs := match s with
    | '-' :: t => (true, t)
    | _ => (false, s)
  let ds := negs.2.span Char.isDigit
  if ds.1.isEmpty then none
  else
    match ds.2 with
    | '.' :: t =>
      let fs := t.span Char.isDigit
      some (⟨negs.1, ds.1, fs.1⟩, fs.2)
    | _ => some (⟨negs.1, ds.1, []⟩, ds.2)

/-- Pattern `coordinate \d+: (-?\d+\.?\d*)\s+(-?\d+\.?\d*)` (line 67) anchored at the
head of `s`. -/
def matchCoordAt (s : List Char) : Option (DecimalTok × DecimalTok) :=
  match takeLit "coordinate ".data s with
  | none => none
  | some s1 =>
    let ds := s1.span Char.isDigit
    if ds.1.isEmpty then none
    else
      match takeLit ": ".data ds.2 with
      | none => none
      | some s3 =>
        match parseDecimal s3 with
        | none => none
        | some (q1, s4) =>
          let ws := s4.span Char.isWhitespace
          if ws.1.isEmpty then none
          else
            match parseDecimal ws.2 with
            | none => none
            | some (q2, _) => some (q1, q2)

/-- Python `re.search` of the coordinate pattern: leftmost match. -/
def searchCoord : List Char → Option (DecimalTok × DecimalTok)
  | [] => none
  | c :: rest =>
    match matchCoordAt (c :: rest) with
    | some r => some r
    | none => searchCoord rest

/-- Pattern `location \[(-?\d+\.?\d*),(-?\d+\.?\d*)\]` (line 74) anchored at the head
of `s`. -/
def matchBracketAt (s : List Char) : Option (DecimalTok × DecimalTok) :=
  match takeLit "location [".data s with
  | none => none
  | some s1 =>
    match parseDecimal s1 with
    | none => none
    | some (q1, s2) =>
      match s2 with
      | ',' :: s3 =>
        match parseDecimal s3 with
        | none => none
        | some (q2, s4) =>
          match s4 with
          | ']' :: _ => some (q1, q2)
          | _ => none
      | _ => none

/-- Python `re.search` of the bracket pattern: leftmost match. -/
def searchBracket : List Char → Option (DecimalTok × DecimalTok)
  | [] => none
  | c :: rest =>
    match matchBracketAt (c :: rest) with
    | some r => some r
    | none => searchBracket rest

/-- One entry of `all_points_for_lookup` (lines 44-54). -/
structure LookupPoint where
  nm : String
  lon : ℚ
  lat : ℚ

/-- Outcome of the `except exceptions.ApiError` handler. -/
inductive ErrorOutcome where
  | raiseUnroutable (nm : String)
  | reraise
deriving DecidableEq, Repr

/-- The error-classification handler of lines 61-89: recognize one of the two
known message shapes, parse the offending coordinate out of the message, and
look up the first submitted point within 0.0001 degrees on both axes; if
everything succeeds raise the descriptive unroutable-location error, else
re-raise the original service error. -/
def handleApiError (msg : String) (lookup : List LookupPoint) : ErrorOutcome :=
  let parsed : Option (DecimalTok × DecimalTok) :=
    if occursIn "Could not find routable point".data msg.data then
      searchCoord msg.data
    else if occursIn "Unfound route(s) from location".data msg.data then
      searchBracket msg.data
    else none
  match parsed with
  | some (dlon, dlat) =>
    match lookup.find? (fun p =>
        decide (|p.lon - dlon.toRat| < 1 / 10000 ∧ |p.lat - dlat.toRat| < 1 / 10000)) with
    | some p => .raiseUnroutable p.nm
    | none => .reraise
  | none => .reraise

/-- The optimization-service error message of the spec's example. -/
def lakeMsg : String :=
  "Could not find routable point within 350m radius of coordinate 2: 30.1234 -1.5678"

/-- The lookup table of the spec's example. -/
def lakeLookup : List LookupPoint :=
  [⟨"Start", 29, -1⟩, ⟨"Lake View", 30.1234, -1.5678⟩]

/-- Lines 18-29 of `optimal_route` as a heap program: copy each input table,
add the constant name columns to the source and final-stop copies, then
lower-case and alias-rename the three copies' columns in place (the only
mutating statements that mention the inputs).  Returns the final heap and the
locations of the source, destinations and final-stop copies. -/
def routePrelude (h : Heap) (iSrc iDst iFin : ℕ) : Heap × ℕ × ℕ × ℕ :=
  let a1 := h.alloc (copyTable (h.mem iSrc))
  let h1 := a1.1
  let aSrc := a1.2
  let h2 := h1.write aSrc (setConstCol (h1.mem aSrc) "name" "Starting point")
  let a2 := h2.alloc (copyTable (h2.mem iFin))
  let h3 := a2.1
  let aFin := a2.2
  let h4 := h3.write aFin (setConstCol (h3.mem aFin) "name" "Final stop")
  let a3 := h4.alloc (copyTable (h4.mem iDst))
  let h5 := a3.1
  let aDst := a3.2
  let h6 := h5.write aSrc (normalizeTable (h5.mem aSrc))
  let h7 := h6.write aFin (normalizeTable (h6.mem aFin))
  let h8 := h7.write aDst (normalizeTable (h7.mem aDst))
  (h8, aSrc, aDst, aFin)

end RoutingTool

namespace RoutingTool

theorem enum_map_idx_add_one (l : List Coord) :
    l.enum.map (fun p => p.1 + 1) = List.range' 1 l.length := by
  rw [List.range'_eq_map_range]
  rw [show (fun p : ℕ × Coord => p.1 + 1) = (fun i => i + 1) ∘ Prod.fst from rfl]
  rw [← List.map_map, List.enum_map_fst]
  exact List.map_congr_left (fun x _ => by omega)

/-- Claim C4 (amended): for every destination sequence the builder creates one
Job per destination, ids exactly `1..N` order-preserving, priority 1 and the
destination's coordinates carried through; the source has no emptiness check,
so for `N = 0` the job list is simply empty (see `c4_counterexample`). -/
theorem c4_jobs_ids_dense (stops : List Coord) :
    (buildJobs stops).map Job.id = List.range' 1 stops.length ∧
    ((buildJobs stops).all fun j => j.priority == 1) = true ∧
    (buildJobs stops).map Job.location = stops := by
  refine ⟨?_, ?_, ?_⟩
  · rw [buildJobs, List.map_map]
    exact enum_map_idx_add_one stops
  · simp only [buildJobs, List.all_eq_true, List.mem_map]
    rintro j ⟨p, -, rfl⟩
    rfl
  · rw [buildJobs, List.map_map]
    exact List.enum_map_snd stops

/-- Claim C4 counterexample: with zero destinations the request-building stage
returns an empty job list and does not fail with `EmptyDestinations` — the
source (lines 39-42) contains no emptiness check. -/
theorem c4_counterexample :
    buildJobsChecked [] = Except.ok [] ∧
    (Except.ok [] : Except RouteError (List Job)) ≠ Except.error RouteError.emptyDestinations := by
  exact ⟨rfl, fun h => Except.noConfusion h⟩

theorem setRangeFrom_length (s e : ℕ) (c : ℤ) :
    ∀ (l : List (Option ℤ)) (i0 : ℕ), (setRangeFrom i0 s e c l).length = l.length := by
  intro l
  induction l with
  | nil => intro i0; rfl
  | cons v t ih => intro i0; simp [setRangeFrom, ih (i0 + 1)]

theorem getElem?_setRangeFrom (s e : ℕ) (c : ℤ) :
    ∀ (l : List (Option ℤ)) (i0 i : ℕ),
      (setRangeFrom i0 s e c l).get? i =
        (l.get? i).map (fun v => if s ≤ i0 + i ∧ i0 + i ≤ e then some c else v) := by
  intro l
  induction l with
  | nil => intro i0 i; rfl
  | cons v t ih =>
    intro i0 i
    cases i with
    | zero => simp [setRangeFrom]
    | succ n =>
      simp only [setRangeFrom, List.get?_cons_succ]
      rw [ih (i0 + 1) n]
      have : i0 + 1 + n = i0 + (n + 1) := by omega
      rw [this]

theorem assignSurfaces_length (m : ℕ) (details : List (ℕ × ℕ × ℤ)) :
    (assignSurfaces m details).length = m := by
  rw [assignSurfaces]
  have h : ∀ (ds : List (ℕ × ℕ × ℤ)) (acc : List (Option ℤ)),
      (ds.foldl (fun acc d => setRange d.1 d.2.1 d.2.2 acc) acc).length = acc.length := by
    intro ds
    induction ds with
    | nil => intro acc; rfl
    | cons d t ih => intro acc; rw [List.foldl_cons, ih, setRange, setRangeFrom_length]
  rw [h, List.length_replicate]

theorem assignSurfaces_uncovered (m : ℕ) (details : List (ℕ × ℕ × ℤ)) (i : ℕ)
    (hi : i < m) (h : ∀ d ∈ details, ¬(d.1 ≤ i ∧ i ≤ d.2.1)) :
    (assignSurfaces m details).get? i = some none := by
  rw [assignSurfaces]
  have hbase : (List.replicate m (none : Option ℤ)).get? i = some none := by
    rw [List.get?_eq_get (by simpa using hi)]
    simp
  revert hbase
  generalize (List.replicate m (none : Option ℤ)) = acc
  revert acc
  induction details with
  | nil => intro acc hacc; simpa using hacc
  | cons d t ih =>
    intro acc hacc
    rw [List.foldl_cons]
    refine ih (fun d' hd' => h d' (List.mem_cons_of_mem _ hd')) _ ?_
    rw [setRange, getElem?_setRangeFrom, hacc]
    have hnc : ¬(d.1 ≤ i ∧ i ≤ d.2.1) := h d (List.mem_cons_self _ _)
    simp [hnc]

/-- Claim C10: every elementary segment keeps a (possibly null) surface entry —
the column has exactly one cell per segment — and a segment covered by no
`(start, end, code)` range keeps the null code, which the enumeration lookup
maps to "Unknown" rather than failing. -/
theorem c10_uncovered_is_unknown (m : ℕ) (details : List (ℕ × ℕ × ℤ)) (i : ℕ)
    (hi : i < m) (h : ∀ d ∈ details, ¬(d.1 ≤ i ∧ i ≤ d.2.1)) :
    ((assignSurfaces m details).map labelOf).length = m ∧
    ((assignSurfaces m details).map labelOf).get? i = some "Unknown" := by
  constructor
  · rw [List.length_map, assignSurfaces_length]
  · rw [List.get?_map, assignSurfaces_uncovered m details i hi h]
    rfl

/-- Claim C10 witness: three segments, a single range covering only index 0;
segment 2 is uncovered and is classified "Unknown". -/
theorem c10_witness :
    ((assignSurfaces 3 [(0, 0, 3)]).map labelOf).length = 3 ∧
    ((assignSurfaces 3 [(0, 0, 3)]).map labelOf).get? 2 = some "Unknown" :=
  c10_uncovered_is_unknown 3 [(0, 0, 3)] 2 (by decide) (by decide)

/-- Claim C2 counterexample: for a 21-coordinate path with surface ranges
`[0,10] ↦ 3` and `[11,20] ↦ 10`, elementary segment 10 is classified
"Asphalt", not "Gravel" as the claim states — pandas `loc[start:end]` slicing
is inclusive of `end`, so the first range covers segments 0..10. -/
theorem c2_counterexample :
    ((add_road_surface_id 21 [(0, 10, 3), (11, 20, 10)]).map labelOf).get? 10 =
      some "Asphalt" ∧ ("Asphalt" : String) ≠ "Gravel" := by
  exact ⟨by decide, by decide⟩

/-- Claim C2 (amended): for a 21-coordinate path with surface ranges
`[0,10] ↦ 3` and `[11,20] ↦ 10`, the 20 elementary segments 0..10 are
classified Asphalt and segments 11..19 Gravel, with no segment Unknown. -/
theorem c2_surface_classification :
    (add_road_surface_id 21 [(0, 10, 3), (11, 20, 10)]).map labelOf =
      List.replicate 11 "Asphalt" ++ List.replicate 9 "Gravel" := by
  decide

/-- Service steps whose array order differs from the cumulative-distance
order: the job at array position 1 lies 12000 m along the route, the job at
array position 2 only 5000 m. -/
def c1_steps : List Step :=
  [⟨"start", none, (0, 0), 0⟩,
   ⟨"job", some 1, (1, 1), 12000⟩,
   ⟨"job", some 2, (2, 2), 5000⟩,
   ⟨"end", none, (3, 3), 20000⟩]

/-- Claim C1 (code-bug evidence): on a step array whose order differs from the
cumulative-distance order, the Visit Sequencer's first (smallest-distance) row
is job 2 but it receives rank 2, its 1-based position in the original array —
`reset_index(drop=False)` resurrects the pre-sort index as `rank` — whereas
the claim (and the sort that line 98 just performed) requires the step with
the smallest cumulative distance to receive rank 1. -/
theorem c1_rank_is_presort_position :
    (job_sequence c1_steps).map (fun p => (p.1, p.2.job, p.2.distance)) =
      [(2, some 2, 5000), (1, some 1, 12000)] := by
  decide

instance : IsTotal Step (fun a b => a.distance ≤ b.distance) :=
  ⟨fun a b => le_total a.distance b.distance⟩

instance : IsTrans Step (fun a b => a.distance ≤ b.distance) :=
  ⟨fun _ _ _ hab hbc => le_trans hab hbc⟩

theorem zip_tail_map_sub :
    ∀ l : List Step,
      (l.zip l.tail).map (fun p => p.2.distance - p.1.distance) =
        ((l.map Step.distance).zip (l.map Step.distance).tail).map (fun p => p.2 - p.1)
  | [] => rfl
  | [_] => rfl
  | a :: b :: t => by
    simp only [List.map_cons, List.tail_cons, List.zip_cons_cons, List.map_cons]
    exact congrArg _ (zip_tail_map_sub (b :: t))

theorem telescope_sum :
    ∀ (l : List ℚ) (a b : ℚ), l.head? = some a → l.getLast? = some b →
      ((l.zip l.tail).map (fun p => p.2 - p.1)).sum = b - a
  | [], a, b => by intro ha _; exact absurd ha (by simp)
  | [x], a, b => by
    intro ha hb
    simp only [List.head?_cons, Option.some.injEq] at ha
    simp only [List.getLast?_singleton, Option.some.injEq] at hb
    subst ha; subst hb
    simp
  | x :: y :: t, a, b => by
    intro ha hb
    simp only [List.head?_cons, Option.some.injEq] at ha
    subst ha
    rw [List.getLast?_cons_cons] at hb
    have ih := telescope_sum (y :: t) y b rfl hb
    simp only [List.tail_cons] at ih
    simp only [List.tail_cons, List.zip_cons_cons, List.map_cons, List.sum_cons]
    rw [ih]
    ring

theorem sorted_diffs_nonneg :
    ∀ l : List ℚ, l.Sorted (· ≤ ·) →
      ∀ x ∈ (l.zip l.tail).map (fun p => p.2 - p.1), 0 ≤ x
  | [] => by simp
  | [_] => by simp
  | x :: y :: t => by
    intro h z hz
    rw [List.sorted_cons] at h
    simp only [List.tail_cons, List.zip_cons_cons, List.map_cons, List.mem_cons] at hz
    rcases hz with rfl | hz
    · have : x ≤ y := h.1 y (by simp)
      linarith
    · exact sorted_diffs_nonneg (y :: t) h.2 z (by simpa using hz)

theorem map_distance_insertionSort (steps : List Step) :
    (List.insertionSort (fun a b : Step => a.distance ≤ b.distance) steps).map Step.distance =
      List.insertionSort (· ≤ ·) (steps.map Step.distance) := by
  refine List.eq_of_perm_of_sorted (r := (· ≤ · : ℚ → ℚ → Prop)) ?_ ?_ ?_
  · exact ((List.perm_insertionSort _ steps).map _).trans
      (List.perm_insertionSort _ (steps.map _)).symm
  · exact List.Pairwise.map _ (fun _ _ hab => hab)
      (List.sorted_insertionSort (fun a b : Step => a.distance ≤ b.distance) steps)
  · exact List.sorted_insertionSort _ _

theorem insertionSort_sorted_self (l : List ℚ) (h : l.Sorted (· ≤ ·)) :
    List.insertionSort (· ≤ ·) l = l :=
  List.eq_of_perm_of_sorted (List.perm_insertionSort _ l)
    (List.sorted_insertionSort _ l) h

theorem route_segment_distances_m_eq (steps : List Step)
    (hsorted : (steps.map Step.distance).Sorted (· ≤ ·)) :
    route_segment_distances_m steps =
      ((steps.map Step.distance).zip (steps.map Step.distance).tail).map
        (fun p => p.2 - p.1) := by
  rw [route_segment_distances_m]
  rw [zip_tail_map_sub]
  rw [map_distance_insertionSort, insertionSort_sorted_self _ hsorted]

/-- Claim C5 (amended): for every step sequence whose cumulative distances are
non-decreasing and whose first cumulative distance is 0 (as the start step's
always is), the derived route segments number one fewer than the steps, every
segment length is non-negative, and the lengths in meters (before the /1000
conversion and rounding) sum to the final step's cumulative distance. -/
theorem c5_route_segments (steps : List Step)
    (hsorted : (steps.map Step.distance).Sorted (· ≤ ·))
    (h0 : (steps.map Step.distance).head? = some 0) (dLast : ℚ)
    (hlast : (steps.map Step.distance).getLast? = some dLast) :
    (route_segment_distances_m steps).length = steps.length - 1 ∧
    (∀ x ∈ route_segment_distances_m steps, 0 ≤ x) ∧
    (route_segment_distances_m steps).sum = dLast := by
  rw [route_segment_distances_m_eq steps hsorted]
  refine ⟨?_, ?_, ?_⟩
  · rw [List.length_map, List.length_zip, List.length_tail, List.length_map]
    omega
  · exact sorted_diffs_nonneg _ hsorted
  · rw [telescope_sum _ 0 dLast h0 hlast, sub_zero]

/-- Claim C5 witness: the spec's own example, steps at cumulative distances
0, 5000, 12000, 18000, 25000 m: 4 segments summing to 25000 m. -/
theorem c5_witness :
    (route_segment_distances_m
      [⟨"start", none, (0, 0), 0⟩, ⟨"job", some 2, (1, 1), 5000⟩,
       ⟨"job", some 1, (2, 2), 12000⟩, ⟨"job", some 3, (3, 3), 18000⟩,
       ⟨"end", none, (4, 4), 25000⟩]).length = 4 ∧
    (route_segment_distances_m
      [⟨"start", none, (0, 0), 0⟩, ⟨"job", some 2, (1, 1), 5000⟩,
       ⟨"job", some 1, (2, 2), 12000⟩, ⟨"job", some 3, (3, 3), 18000⟩,
       ⟨"end", none, (4, 4), 25000⟩]).sum = 25000 := by
  have h := c5_route_segments
    [⟨"start", none, (0, 0), 0⟩, ⟨"job", some 2, (1, 1), 5000⟩,
     ⟨"job", some 1, (2, 2), 12000⟩, ⟨"job", some 3, (3, 3), 18000⟩,
     ⟨"end", none, (4, 4), 25000⟩]
    (by norm_num [List.sorted_cons]) rfl 25000 rfl
  exact ⟨h.1, h.2.2⟩

/-- Two steps whose cumulative distances are non-decreasing but do not start
at 0. -/
def c5_bad_steps : List Step :=
  [⟨"start", none, (0, 0), 100⟩, ⟨"end", none, (1, 1), 200⟩]

/-- Claim C5 counterexample: a step sequence with non-decreasing cumulative
distances 100, 200 yields one segment of 100 m, which does not sum to the
final cumulative distance 200 — the differences telescope to last minus
first, so the claim as stated fails whenever the first distance is nonzero. -/
theorem c5_counterexample :
    (c5_bad_steps.map Step.distance).Sorted (· ≤ ·) ∧
    (route_segment_distances_m c5_bad_steps).sum = 100 ∧
    (c5_bad_steps.map Step.distance).getLast? = some 200 ∧
    (100 : ℚ) ≠ 200 := by
  refine ⟨by norm_num [c5_bad_steps, List.sorted_cons], ?_, rfl, by norm_num⟩
  rw [route_segment_distances_m_eq c5_bad_steps
    (by norm_num [c5_bad_steps, List.sorted_cons])]
  norm_num [c5_bad_steps]

theorem resolveCoords_error (t : PdTable)
    (h1 : "lon" ∉ (normalizeTable t).cols) :
    resolveCoords t = .error RouteError.missingColumn := by
  simp only [resolveCoords]
  rw [if_neg (fun hc => h1 hc.1)]

theorem resolveCoords_error_shape (t : PdTable) (e : RouteError)
    (h : resolveCoords t = .error e) : e = .missingColumn := by
  simp only [resolveCoords] at h
  split at h
  · exact Except.noConfusion h
  · injection h with h2
    exact h2.symm

/-- Claim C6: if for any one of the three input tables no coordinate column
resolves after lower-casing and alias renaming, the pipeline fails with the
`missingColumn` error, whatever the service oracle would answer — so the
failure happens before any network call. -/
theorem c6_missing_column {σ : Type} (src dst fin : PdTable)
    (oracle : PdTable × PdTable × PdTable → Except RouteError σ)
    (h :
      ("lon" ∉ (normalizeTable (setConstCol src "name" "Starting point")).cols ∧
       "lat" ∉ (normalizeTable (setConstCol src "name" "Starting point")).cols) ∨
      ("lon" ∉ (normalizeTable (setConstCol fin "name" "Final stop")).cols ∧
       "lat" ∉ (normalizeTable (setConstCol fin "name" "Final stop")).cols) ∨
      ("lon" ∉ (normalizeTable dst).cols ∧ "lat" ∉ (normalizeTable dst).cols)) :
    pipelineWithService src dst fin oracle = .error RouteError.missingColumn := by
  rw [pipelineWithService, pipelineHead]
  rcases h with ⟨h1, -⟩ | ⟨h1, -⟩ | ⟨h1, -⟩
  · rw [resolveCoords_error _ h1]
    rfl
  · rw [resolveCoords_error _ h1]
    rcases hA : resolveCoords (setConstCol src "name" "Starting point") with e | s
    · rw [resolveCoords_error_shape _ _ hA]
      rfl
    · rfl
  · rw [resolveCoords_error _ h1]
    rcases hA : resolveCoords (setConstCol src "name" "Starting point") with e | s
    · rw [resolveCoords_error_shape _ _ hA]
      rfl
    · rcases hB : resolveCoords (setConstCol fin "name" "Final stop") with e2 | f2
      · rw [resolveCoords_error_shape _ _ hB]
        rfl
      · rfl

/-- Claim C6 witness: a source table whose only column is `id` resolves no
coordinate column; the pipeline answers `missingColumn` even though the
oracle would have succeeded. -/
theorem c6_witness :
    pipelineWithService (σ := ℕ) ⟨["id"], []⟩ ⟨["lon", "lat"], []⟩ ⟨["lon", "lat"], []⟩
      (fun _ => .ok 0) = .error RouteError.missingColumn :=
  c6_missing_column _ _ _ _ (Or.inl ⟨by decide, by decide⟩)

/-- Claim C8: the prelude of `optimal_route` copies its inputs before any
column mutation: after it runs, every pre-existing object — in particular the
three caller-supplied tables — holds exactly its old value, and the three
returned tables live at freshly allocated locations.  (The rest of the
function reads the inputs only through `input_source.get` /
`input_final_stop.get` and builds new objects.) -/
theorem c8_inputs_unchanged (h : Heap) (iSrc iDst iFin : ℕ) (i : ℕ)
    (hi : i < h.next) :
    (routePrelude h iSrc iDst iFin).1.mem i = h.mem i ∧
    h.next ≤ (routePrelude h iSrc iDst iFin).2.1 ∧
    h.next ≤ (routePrelude h iSrc iDst iFin).2.2.1 ∧
    h.next ≤ (routePrelude h iSrc iDst iFin).2.2.2 := by
  have r1 : (routePrelude h iSrc iDst iFin).2.1 = h.next := rfl
  have r2 : (routePrelude h iSrc iDst iFin).2.2.1 = h.next + 2 := rfl
  have r3 : (routePrelude h iSrc iDst iFin).2.2.2 = h.next + 1 := rfl
  refine ⟨?_, ?_, ?_, ?_⟩
  · simp only [routePrelude, Heap.alloc, Heap.write, copyTable]
    split_ifs <;> first | rfl | omega
  · rw [r1]
  · rw [r2]; omega
  · rw [r3]; omega

/-- Claim C8 witness: a concrete three-object heap; after the prelude the
caller's source table (location 0) is unchanged and the source copy went to
the fresh location 3. -/
theorem c8_witness :
    (routePrelude ⟨3, fun _ => ⟨["id"], []⟩⟩ 0 1 2).1.mem 0 = (⟨["id"], []⟩ : PdTable) ∧
    3 ≤ (routePrelude ⟨3, fun _ => ⟨["id"], []⟩⟩ 0 1 2).2.1 := by
  have h := c8_inputs_unchanged ⟨3, fun _ => ⟨["id"], []⟩⟩ 0 1 2 0 (by show (0 : ℕ) < 3; omega)
  exact ⟨h.1, h.2.1⟩

theorem abs_roundHalfEven_sub (x : ℚ) : |(roundHalfEven x : ℚ) - x| ≤ 1 / 2 := by
  have h0 : (⌊x⌋ : ℚ) ≤ x := Int.floor_le x
  have h1 : x < ⌊x⌋ + 1 := Int.lt_floor_add_one x
  rw [roundHalfEven]
  split_ifs with hc1 hc2 hc3 <;> push_cast <;> rw [abs_le] <;> constructor <;> linarith

theorem abs_round2_sub (x : ℚ) : |round2 x - x| ≤ 1 / 200 := by
  have h := abs_roundHalfEven_sub (x * 100)
  rw [round2]
  have he : (roundHalfEven (x * 100) : ℚ) / 100 - x =
      ((roundHalfEven (x * 100) : ℚ) - x * 100) / 100 := by ring
  rw [he, abs_div, show |(100 : ℚ)| = 100 from by norm_num]
  calc |(roundHalfEven (x * 100) : ℚ) - x * 100| / 100 ≤ (1 / 2) / 100 :=
        (div_le_div_right (by norm_num)).mpr h
    _ = 1 / 200 := by norm_num

theorem abs_list_sum_le (l : List ℚ) : |l.sum| ≤ (l.map (fun x => |x|)).sum := by
  induction l with
  | nil => simp
  | cons x t ih =>
    simp only [List.sum_cons, List.map_cons]
    calc |x + t.sum| ≤ |x| + |t.sum| := abs_add _ _
      _ ≤ |x| + (t.map (fun x => |x|)).sum := by linarith

theorem sum_map_indicator (a : String) (c : ℚ) :
    ∀ L : List String, L.Nodup →
      (L.map (fun l => if a == l then c else 0)).sum = if a ∈ L then c else 0
  | [] => by simp
  | x :: t => by
    intro hN
    rw [List.nodup_cons] at hN
    have ih := sum_map_indicator a c t hN.2
    rw [List.map_cons, List.sum_cons, ih]
    by_cases hax : a = x
    · subst hax
      simp [hN.1]
    · simp [hax, List.mem_cons]

theorem sum_groupWeight :
    ∀ segs : List (String × ℚ),
      ((statLabels segs).map (groupWeight segs)).sum = (segs.map Prod.snd).sum
  | [] => by simp [statLabels, groupWeight]
  | a :: t => by
    have ih := sum_groupWeight t
    have hw : ∀ l : String,
        groupWeight (a :: t) l = (if a.1 == l then a.2 else 0) + groupWeight t l := by
      intro l
      rw [groupWeight, groupWeight, List.filter_cons]
      rcases Bool.eq_false_or_eq_true (a.1 == l) with h | h
      · simp [h]
      · simp [h]
    have hmapw : ∀ L : List String,
        L.map (groupWeight (a :: t)) =
          L.map (fun l => (if a.1 == l then a.2 else 0) + groupWeight t l) :=
      fun L => List.map_congr_left (fun l _ => hw l)
    rw [statLabels, List.map_cons]
    simp only [List.map_cons, List.sum_cons]
    have hnd : (statLabels t).Nodup := by rw [statLabels]; exact List.nodup_dedup _
    by_cases hm : a.1 ∈ t.map Prod.fst
    · rw [List.dedup_cons_of_mem hm]
      rw [show (t.map Prod.fst).dedup = statLabels t from rfl]
      rw [hmapw, List.sum_map_add,
        sum_map_indicator a.1 a.2 (statLabels t) hnd,
        if_pos (show a.1 ∈ statLabels t from List.mem_dedup.mpr hm), ih]
    · rw [List.dedup_cons_of_not_mem hm, List.map_cons, List.sum_cons]
      rw [show (t.map Prod.fst).dedup = statLabels t from rfl]
      rw [hmapw, List.sum_map_add,
        sum_map_indicator a.1 a.2 (statLabels t) hnd,
        if_neg (show a.1 ∉ statLabels t from fun hc => hm (List.mem_dedup.mp hc)), hw a.1]
      have hz : t.filter (fun s => s.1 == a.1) = [] := by
        rw [List.filter_eq_nil]
        intro s hs hbeq
        exact hm (List.mem_map.mpr ⟨s, hs, by simpa using hbeq⟩)
      rw [show groupWeight t a.1 = ((t.filter (fun s => s.1 == a.1)).map Prod.snd).sum
          from rfl, hz]
      simp [ih]

theorem dedup_length_le_names (segs : List (String × ℚ))
    (hlab : ∀ s ∈ segs, s.1 ∈ surface_codes.map Prod.snd) :
    (statLabels segs).length ≤ 16 := by
  have hsub : (statLabels segs).toFinset ⊆ (surface_codes.map Prod.snd).toFinset := by
    intro x hx
    rw [List.mem_toFinset] at hx ⊢
    rcases List.mem_map.mp (List.mem_dedup.mp hx) with ⟨s, hs, rfl⟩
    exact hlab s hs
  have h1 : (statLabels segs).toFinset.card = (statLabels segs).length :=
    List.toFinset_card_of_nodup (List.nodup_dedup _)
  have h2 := Finset.card_le_card hsub
  have h3 := List.toFinset_card_le (surface_codes.map Prod.snd)
  have h4 : (surface_codes.map Prod.snd).length = 16 := rfl
  omega

theorem totalKm_eq (segs : List (String × ℚ)) :
    totalKm segs = (segs.map Prod.snd).sum / 1000 := by
  rw [totalKm]
  have h1 : (statLabels segs).map (groupKm segs) =
      (statLabels segs).map (fun l => groupWeight segs l * (1 / 1000)) :=
    List.map_congr_left (fun l _ => by rw [groupKm]; ring)
  rw [h1, List.sum_map_mul_right, sum_groupWeight]
  ring

/-- Claim C7: for every non-empty segment set with positive total length
whose labels come from the surface enumeration, the per-surface percentages
(each rounded to 2 decimals) sum to 100 within ±0.1: there are at most 16
groups and each rounding moves a percentage by at most 1/200, so the sum is
within 16/200 = 0.08 of the exact 100. -/
theorem c7_percentages_sum_100 (segs : List (String × ℚ))
    (hne : segs ≠ []) (hpos : 0 < (segs.map Prod.snd).sum)
    (hlab : ∀ s ∈ segs, s.1 ∈ surface_codes.map Prod.snd) :
    |((surface_stats segs).map (fun r => r.2.2)).sum - 100| ≤ 1 / 10 := by
  have hT0 : 0 < totalKm segs := by
    rw [totalKm_eq]
    positivity
  have hperm : ((surface_stats segs).map (fun r => r.2.2)).sum =
      ((statLabels segs).map
        (fun l => round2 (groupKm segs l / totalKm segs * 100))).sum := by
    rw [surface_stats]
    have hp := List.perm_insertionSort (fun a b : String × ℚ × ℚ => b.2.1 ≤ a.2.1)
      ((statLabels segs).map (fun l =>
        (l, round2 (groupKm segs l), round2 (groupKm segs l / totalKm segs * 100))))
    rw [(hp.map (fun r : String × ℚ × ℚ => r.2.2)).sum_eq, List.map_map]
    exact congrArg List.sum (List.map_congr_left fun l _ => rfl)
  have hsum_pct : ((statLabels segs).map
      (fun l => groupKm segs l / totalKm segs * 100)).sum = 100 := by
    have h1 : (statLabels segs).map (fun l => groupKm segs l / totalKm segs * 100) =
        (statLabels segs).map (fun l => groupKm segs l * (100 / totalKm segs)) :=
      List.map_congr_left (fun l _ => by ring)
    rw [h1, List.sum_map_mul_right]
    rw [show ((statLabels segs).map fun l => groupKm segs l).sum = totalKm segs from rfl]
    rw [mul_div_cancel₀ _ (ne_of_gt hT0)]
  have hsplit : ((statLabels segs).map
      (fun l => round2 (groupKm segs l / totalKm segs * 100))).sum =
      ((statLabels segs).map
        (fun l => round2 (groupKm segs l / totalKm segs * 100) -
          groupKm segs l / totalKm segs * 100)).sum +
      ((statLabels segs).map (fun l => groupKm segs l / totalKm segs * 100)).sum := by
    rw [← List.sum_map_add]
    exact congrArg List.sum (List.map_congr_left (fun l _ => by ring))
  rw [hperm, hsplit, hsum_pct, add_sub_cancel_right]
  have h1 := abs_list_sum_le ((statLabels segs).map
    (fun l => round2 (groupKm segs l / totalKm segs * 100) -
      groupKm segs l / totalKm segs * 100))
  rw [List.map_map] at h1
  have h2 := List.sum_le_card_nsmul
    ((statLabels segs).map (fun l =>
      |round2 (groupKm segs l / totalKm segs * 100) -
        groupKm segs l / totalKm segs * 100|)) (1 / 200)
    (by
      intro x hx
      rcases List.mem_map.mp hx with ⟨l, -, rfl⟩
      exact abs_round2_sub _)
  rw [List.length_map, nsmul_eq_mul] at h2
  have h3 : ((statLabels segs).length : ℚ) ≤ 16 := by
    exact_mod_cast dedup_length_le_names segs hlab
  have h4 : ((statLabels segs).length : ℚ) * (1 / 200) ≤ 16 * (1 / 200) := by
    apply mul_le_mul_of_nonneg_right h3
    norm_num
  calc |((statLabels segs).map
      (fun l => round2 (groupKm segs l / totalKm segs * 100) -
        groupKm segs l / totalKm segs * 100)).sum|
      ≤ (((statLabels segs).map (fun l =>
          |round2 (groupKm segs l / totalKm segs * 100) -
            groupKm segs l / totalKm segs * 100|))).sum := h1
    _ ≤ ((statLabels segs).length : ℚ) * (1 / 200) := h2
    _ ≤ 16 * (1 / 200) := h4
    _ ≤ 1 / 10 := by norm_num

/-- Claim C7 witness: two segments, 600 m of Asphalt and 400 m of Gravel; the
rounded percentages sum to 100 within ±0.1. -/
theorem c7_witness :
    |((surface_stats [("Asphalt", 600), ("Gravel", 400)]).map (fun r => r.2.2)).sum - 100|
      ≤ 1 / 10 :=
  c7_percentages_sum_100 [("Asphalt", 600), ("Gravel", 400)] (by simp)
    (by norm_num) (by decide)

theorem take_ne_of_head_ne {pat : List Char} {p c : Char} {t : List Char}
    (hp : pat.head? = some p) (hne : c ≠ p) : ¬((c :: t).take pat.length = pat) := by
  intro hEq
  cases pat with
  | nil => exact Option.noConfusion hp
  | cons q qt =>
    rw [List.head?_cons, Option.some.injEq] at hp
    rw [List.length_cons, List.take_succ_cons] at hEq
    have hcq := (List.cons.injEq _ _ _ _).mp hEq
    exact hne (hcq.1.trans hp)

theorem occursIn_cons_false {pat : List Char} {p : Char} (hp : pat.head? = some p)
    {c : Char} (hne : c ≠ p) {t : List Char} (h : occursIn pat t = false) :
    occursIn pat (c :: t) = false := by
  rw [occursIn, h, Bool.or_false, beq_eq_false_iff_ne]
  exact take_ne_of_head_ne hp hne

theorem occursIn_of_all_ne {pat : List Char} {p : Char} (hp : pat.head? = some p) :
    ∀ t : List Char, (∀ c ∈ t, c ≠ p) → occursIn pat t = false
  | [] => by
    intro
    rw [occursIn]
    cases pat with
    | nil => exact Option.noConfusion hp
    | cons q qt => rfl
  | c :: rest => fun h =>
    occursIn_cons_false hp (h c (List.mem_cons_self c rest))
      (occursIn_of_all_ne hp rest (fun x hx => h x (List.mem_cons_of_mem c hx)))

theorem replChars_cons_of_take_ne (pat rep : List Char) (c : Char) (t : List Char)
    (h : ¬((c :: t).take pat.length = pat)) :
    replChars pat rep (c :: t) = c :: replChars pat rep t := by
  rw [replChars]
  rw [dif_neg (fun hc => h hc.2)]

theorem replChars_of_not_occurs (pat rep : List Char) :
    ∀ t, occursIn pat t = false → replChars pat rep t = t
  | [] => by
    intro
    rw [replChars]
  | c :: rest => by
    intro h
    rw [occursIn] at h
    rcases Bool.or_eq_false_iff.mp h with ⟨h1, h2⟩
    rw [replChars_cons_of_take_ne pat rep c rest (beq_eq_false_iff_ne.mp h1),
      replChars_of_not_occurs pat rep rest h2]

theorem replChars_no_match_head (pat rep : List Char) :
    ∀ x y : List Char,
      (∀ k, k < x.length → ¬(((x ++ y).drop k).take pat.length = pat)) →
      replChars pat rep (x ++ y) = x ++ replChars pat rep y
  | [], y => by
    intro
    rw [List.nil_append, List.nil_append]
  | c :: x', y => by
    intro h
    rw [List.cons_append]
    rw [replChars_cons_of_take_ne pat rep c (x' ++ y)
      (by
        have h0 := h 0 (Nat.succ_pos _)
        rwa [List.drop_zero, List.cons_append] at h0)]
    rw [replChars_no_match_head pat rep x' y
      (fun k hk => by
        have hk1 := h (k + 1) (Nat.succ_lt_succ hk)
        rwa [List.cons_append, List.drop_succ_cons] at hk1)]
    rfl

theorem replChars_match_once (pat rep t : List Char) (hp : 0 < pat.length)
    (hm : t.take pat.length = pat)
    (hrest : occursIn pat (t.drop pat.length) = false) :
    replChars pat rep t = rep ++ t.drop pat.length := by
  cases t with
  | nil =>
    rw [List.take_nil] at hm
    rw [← hm] at hp
    simp at hp
  | cons c rest =>
    rw [replChars, dif_pos ⟨hp, hm⟩,
      replChars_of_not_occurs pat rep _ hrest]

theorem occursIn_cons17_false (pat : List Char) (hp : pat.head? = some 'd')
    (w : List Char) (hw : ∀ c ∈ w, c ≠ 'd')
    (h0 : ¬((destLead w).take pat.length = pat)) :
    occursIn pat (destLead w) = false := by
  rw [destLead] at h0 ⊢
  have hbase : occursIn pat w = false := occursIn_of_all_ne hp w hw
  have s16 := occursIn_cons_false hp (show ' ' ≠ 'd' from by decide) hbase
  have s15 := occursIn_cons_false hp (show 'o' ≠ 'd' from by decide) s16
  have s14 := occursIn_cons_false hp (show 't' ≠ 'd' from by decide) s15
  have s13 := occursIn_cons_false hp (show ' ' ≠ 'd' from by decide) s14
  have s12 := occursIn_cons_false hp (show '9' ≠ 'd' from by decide) s13
  have s11 := occursIn_cons_false hp (show ' ' ≠ 'd' from by decide) s12
  have s10 := occursIn_cons_false hp (show 'n' ≠ 'd' from by decide) s11
  have s9 := occursIn_cons_false hp (show 'o' ≠ 'd' from by decide) s10
  have s8 := occursIn_cons_false hp (show 'i' ≠ 'd' from by decide) s9
  have s7 := occursIn_cons_false hp (show 't' ≠ 'd' from by decide) s8
  have s6 := occursIn_cons_false hp (show 'a' ≠ 'd' from by decide) s7
  have s5 := occursIn_cons_false hp (show 'n' ≠ 'd' from by decide) s6
  have s4 := occursIn_cons_false hp (show 'i' ≠ 'd' from by decide) s5
  have s3 := occursIn_cons_false hp (show 't' ≠ 'd' from by decide) s4
  have s2 := occursIn_cons_false hp (show 's' ≠ 'd' from by decide) s3
  have s1 := occursIn_cons_false hp (show 'e' ≠ 'd' from by decide) s2
  rw [occursIn, s1, Bool.or_false, beq_eq_false_iff_ne]
  exact h0

/-- Claim C9: the segment-name substitution applies the lower-cased generic
labels in rank order as plain substring replacements; because `destination 1`
is a prefix of `destination 10`, on a route with 10 ranked destinations the
segment name "destination 9 to destination 10" is rewritten to destination
9's identifier, " to ", then destination 1's identifier followed by the stray
character '0' — the `destination 1` prefix of `destination 10` was replaced —
and (second conjunct) not to the intended name carrying destination 10's
identifier.  Identifiers are assumed not to contain the letter 'd', which
rules out accidental re-matches of the generic labels inside identifiers. -/
theorem c9_name_substitution (v1 v2 v3 v4 v5 v6 v7 v8 v9 v10 : String)
    (h1 : ∀ c ∈ v1.data, c ≠ 'd') (h9 : ∀ c ∈ v9.data, c ≠ 'd') :
    replace_names "destination 9 to destination 10"
      [("destination 1", v1), ("destination 2", v2), ("destination 3", v3),
       ("destination 4", v4), ("destination 5", v5), ("destination 6", v6),
       ("destination 7", v7), ("destination 8", v8), ("destination 9", v9),
       ("destination 10", v10)] = v9 ++ " to " ++ v1 ++ "0" ∧
    (v10 ≠ v1 ++ "0" →
      replace_names "destination 9 to destination 10"
        [("destination 1", v1), ("destination 2", v2), ("destination 3", v3),
         ("destination 4", v4), ("destination 5", v5), ("destination 6", v6),
         ("destination 7", v7), ("destination 8", v8), ("destination 9", v9),
         ("destination 10", v10)] ≠ v9 ++ " to " ++ v10) := by
  have hw1 : ∀ c ∈ v1.data ++ ['0'], c ≠ 'd' := by
    intro c hc
    rcases List.mem_append.mp hc with h | h
    · exact h1 c h
    · rw [List.mem_singleton] at h
      subst h
      decide
  have htail : ∀ pat : List Char, pat.head? = some 'd' →
      occursIn pat (' ' :: 't' :: 'o' :: ' ' :: (v1.data ++ ['0'])) = false := by
    intro pat hp
    exact occursIn_cons_false hp (by decide)
      (occursIn_cons_false hp (by decide)
        (occursIn_cons_false hp (by decide)
          (occursIn_cons_false hp (by decide)
            (occursIn_of_all_ne hp _ hw1))))
  have htake13 : ∀ w : List Char,
      (destLead w).take 13 =
        ['d', 'e', 's', 't', 'i', 'n', 'a', 't', 'i', 'o', 'n', ' ', '9'] :=
    fun _ => rfl
  have e1 : replChars "destination 1".data v1.data "destination 9 to destination 10".data
      = destLead (v1.data ++ ['0']) := by
    rw [show "destination 9 to destination 10".data =
        ('d' :: 'e' :: 's' :: 't' :: 'i' :: 'n' :: 'a' :: 't' :: 'i' :: 'o' :: 'n' ::
          ' ' :: '9' :: ' ' :: 't' :: 'o' :: ' ' :: []) ++ "destination 10".data from rfl]
    rw [replChars_no_match_head _ _ _ _ (by decide)]
    rw [replChars_match_once _ _ _ (by decide) (by decide) (by decide)]
    rfl
  have e2 := replChars_of_not_occurs "destination 2".data v2.data _
    (occursIn_cons17_false "destination 2".data rfl (v1.data ++ ['0']) hw1
      (by
        rw [show ("destination 2".data).length = 13 from rfl, htake13]
        decide))
  have e3 := replChars_of_not_occurs "destination 3".data v3.data _
    (occursIn_cons17_false "destination 3".data rfl (v1.data ++ ['0']) hw1
      (by
        rw [show ("destination 3".data).length = 13 from rfl, htake13]
        decide))
  have e4 := replChars_of_not_occurs "destination 4".data v4.data _
    (occursIn_cons17_false "destination 4".data rfl (v1.data ++ ['0']) hw1
      (by
        rw [show ("destination 4".data).length = 13 from rfl, htake13]
        decide))
  have e5 := replChars_of_not_occurs "destination 5".data v5.data _
    (occursIn_cons17_false "destination 5".data rfl (v1.data ++ ['0']) hw1
      (by
        rw [show ("destination 5".data).length = 13 from rfl, htake13]
        decide))
  have e6 := replChars_of_not_occurs "destination 6".data v6.data _
    (occursIn_cons17_false "destination 6".data rfl (v1.data ++ ['0']) hw1
      (by
        rw [show ("destination 6".data).length = 13 from rfl, htake13]
        decide))
  have e7 := replChars_of_not_occurs "destination 7".data v7.data _
    (occursIn_cons17_false "destination 7".data rfl (v1.data ++ ['0']) hw1
      (by
        rw [show ("destination 7".data).length = 13 from rfl, htake13]
        decide))
  have e8 := replChars_of_not_occurs "destination 8".data v8.data _
    (occursIn_cons17_false "destination 8".data rfl (v1.data ++ ['0']) hw1
      (by
        rw [show ("destination 8".data).length = 13 from rfl, htake13]
        decide))
  have e9 : replChars "destination 9".data v9.data (destLead (v1.data ++ ['0']))
      = v9.data ++ (' ' :: 't' :: 'o' :: ' ' :: (v1.data ++ ['0'])) := by
    rw [replChars_match_once "destination 9".data v9.data (destLead (v1.data ++ ['0']))
      (by decide) (by rw [destLead]; rfl)
      (by
        show occursIn "destination 9".data ((destLead (v1.data ++ ['0'])).drop 13) = false
        rw [show (destLead (v1.data ++ ['0'])).drop 13 =
          ' ' :: 't' :: 'o' :: ' ' :: (v1.data ++ ['0']) from rfl]
        exact htail _ rfl)]
    rfl
  have hall : ∀ c ∈ v9.data ++ (' ' :: 't' :: 'o' :: ' ' :: (v1.data ++ ['0'])), c ≠ 'd' := by
    intro c hc
    rcases List.mem_append.mp hc with h | h
    · exact h9 c h
    · simp only [List.mem_cons] at h
      rcases h with rfl | rfl | rfl | rfl | h
      · decide
      · decide
      · decide
      · decide
      · exact hw1 c h
  have e10 := replChars_of_not_occurs "destination 10".data v10.data _
    (occursIn_of_all_ne (show ("destination 10".data).head? = some 'd' from rfl) _ hall)
  have hmain : replace_names "destination 9 to destination 10"
      [("destination 1", v1), ("destination 2", v2), ("destination 3", v3),
       ("destination 4", v4), ("destination 5", v5), ("destination 6", v6),
       ("destination 7", v7), ("destination 8", v8), ("destination 9", v9),
       ("destination 10", v10)] = v9 ++ " to " ++ v1 ++ "0" := by
    refine String.ext ?_
    show List.foldl (fun t kv => replChars kv.1.data kv.2.data t)
      "destination 9 to destination 10".data
      [("destination 1", v1), ("destination 2", v2), ("destination 3", v3),
       ("destination 4", v4), ("destination 5", v5), ("destination 6", v6),
       ("destination 7", v7), ("destination 8", v8), ("destination 9", v9),
       ("destination 10", v10)] = (v9 ++ " to " ++ v1 ++ "0").data
    simp only [List.foldl_cons, List.foldl_nil]
    rw [e1, e2, e3, e4, e5, e6, e7, e8, e9, e10]
    simp only [String.data_append, List.append_assoc]
    rfl
  refine ⟨hmain, fun hne10 heq => ?_⟩
  rw [hmain] at heq
  apply hne10
  have hdata := congrArg String.data heq
  simp only [String.data_append, List.append_assoc] at hdata
  have hcan := List.append_cancel_left (List.append_cancel_left hdata)
  refine String.ext ?_
  rw [String.data_append]
  exact hcan.symm

/-- Claim C9 witness: with identifiers Alpha..Mu for ranks 1..10, the segment
name "destination 9 to destination 10" comes out as "Kappa to Alpha0" —
destination 1's identifier replaced the `destination 1` prefix of
`destination 10` — instead of the intended "Kappa to Mu". -/
theorem c9_witness :
    replace_names "destination 9 to destination 10"
      [("destination 1", "Alpha"), ("destination 2", "Beta"), ("destination 3", "Gamma"),
       ("destination 4", "Epsilon"), ("destination 5", "Zeta"), ("destination 6", "Eta"),
       ("destination 7", "Theta"), ("destination 8", "Iota"), ("destination 9", "Kappa"),
       ("destination 10", "Mu")] = "Kappa" ++ " to " ++ "Alpha" ++ "0" ∧
    replace_names "destination 9 to destination 10"
      [("destination 1", "Alpha"), ("destination 2", "Beta"), ("destination 3", "Gamma"),
       ("destination 4", "Epsilon"), ("destination 5", "Zeta"), ("destination 6", "Eta"),
       ("destination 7", "Theta"), ("destination 8", "Iota"), ("destination 9", "Kappa"),
       ("destination 10", "Mu")] ≠ "Kappa" ++ " to " ++ "Mu" := by
  have h := c9_name_substitution "Alpha" "Beta" "Gamma" "Epsilon" "Zeta" "Eta"
    "Theta" "Iota" "Kappa" "Mu" (by decide) (by decide)
  exact ⟨h.1, h.2 (by decide)⟩

/-- Claim C3: if the optimization service's error message contains
"Could not find routable point" together with a parsable
`coordinate N: <lon> <lat>` clause, and some submitted point (source, final
stop or destination) lies within 0.0001 degrees of the parsed coordinate on
both axes, then the handler raises the unroutable-location error naming such
a point (the first matching entry of the lookup table). -/
theorem c3_unroutable_names_point (msg : String) (lookup : List LookupPoint)
    (hin : occursIn "Could not find routable point".data msg.data = true)
    (dlon dlat : DecimalTok) (hparse : searchCoord msg.data = some (dlon, dlat))
    (p : LookupPoint) (hp : p ∈ lookup)
    (hlon : |p.lon - dlon.toRat| < 1 / 10000) (hlat : |p.lat - dlat.toRat| < 1 / 10000) :
    ∃ q ∈ lookup, |q.lon - dlon.toRat| < 1 / 10000 ∧ |q.lat - dlat.toRat| < 1 / 10000 ∧
      handleApiError msg lookup = .raiseUnroutable q.nm := by
  cases hq : lookup.find? (fun r =>
      decide (|r.lon - dlon.toRat| < 1 / 10000 ∧ |r.lat - dlat.toRat| < 1 / 10000)) with
  | none =>
    exfalso
    have hfind : (lookup.find? (fun r =>
        decide (|r.lon - dlon.toRat| < 1 / 10000 ∧
          |r.lat - dlat.toRat| < 1 / 10000))).isSome = true := by
      rw [List.find?_isSome]
      exact ⟨p, hp, decide_eq_true ⟨hlon, hlat⟩⟩
    rw [hq] at hfind
    simp at hfind
  | some q =>
    have hqmem := List.mem_of_find?_eq_some hq
    have hqpred := List.find?_some hq
    have hqc := of_decide_eq_true hqpred
    refine ⟨q, hqmem, hqc.1, hqc.2, ?_⟩
    simp only [handleApiError, hin, if_true, hparse, hq]

/-- Claim C3 witness: the spec's example message and lookup table: the
handler names "Lake View", the destination at (30.1234, -1.5678). -/
theorem c3_witness :
    handleApiError lakeMsg lakeLookup = .raiseUnroutable "Lake View" := by
  have htr1 : DecimalTok.toRat ⟨false, ['3', '0'], ['1', '2', '3', '4']⟩ = 30.1234 := by
    have d1 : natOfDigits ['3', '0'] = 30 := by decide
    have d2 : natOfDigits ['1', '2', '3', '4'] = 1234 := by decide
    simp only [DecimalTok.toRat, d1, d2]
    norm_num
  have htr2 : DecimalTok.toRat ⟨true, ['1'], ['5', '6', '7', '8']⟩ = -1.5678 := by
    have d1 : natOfDigits ['1'] = 1 := by decide
    have d2 : natOfDigits ['5', '6', '7', '8'] = 5678 := by decide
    simp only [DecimalTok.toRat, d1, d2]
    norm_num
  obtain ⟨q, hqmem, hq1, hq2, heq⟩ := c3_unroutable_names_point lakeMsg lakeLookup
    (by decide) ⟨false, ['3', '0'], ['1', '2', '3', '4']⟩ ⟨true, ['1'], ['5', '6', '7', '8']⟩
    (by decide) ⟨"Lake View", 30.1234, -1.5678⟩
    (by rw [lakeLookup]; exact List.mem_cons_of_mem _ (List.mem_cons_self _ _))
    (by rw [htr1]; norm_num)
    (by rw [htr2]; norm_num)
  simp only [lakeLookup, List.mem_cons, List.not_mem_nil, or_false] at hqmem
  rcases hqmem with rfl | rfl
  · exfalso
    rw [htr1] at hq1
    norm_num at hq1
    rw [abs_of_pos (by norm_num : (0 : ℚ) < 5617 / 5000)] at hq1
    norm_num at hq1
  · exact heq

end RoutingTool
